import Mathlib

/-!
Verification development for `herbie/fast.py` (the FastHerbie bulk fan-out layer).

The embedding has two layers.

The first layer models the Python value universe that the argument validators
`_validate_fxx` (fast.py lines 35-43) and `_validate_DATES` (lines 46-58) and the
prologue of `FastHerbie.__init__` (lines 127-144) operate on: scalars (strings,
timestamps, ints, floats) and the list-likes (lists, ranges, tuples,
`pd.DatetimeIndex`), together with Python's `len` and iteration, both of which
fail with `TypeError` on scalars.  `pd.to_datetime` is threaded in as an explicit
parsing parameter `toDT`, since its parsing rules are external to this module.

The second layer models the successfully normalized situation where `DATES` and
`fxx` are genuine lists: a task is a `(date, fxx)` pair of integers, the external
`Herbie` constructor is an oracle `Task → TaskOutcome` (raising, or resolving
with an optional grib artifact reference), and the nondeterministic
worker-completion order of `concurrent.futures.as_completed` is an explicit
reordering function `sched` applied to the submitted futures list; theorems
quantify over all `sched` that permute the futures.  Python's stable `list.sort`
is rendered as `List.insertionSort` (a stable sort, like CPython's timsort: any
two stable sorts with the same key agree).  Exceptions are modelled by
`Except String`.
-/

namespace HerbieFast

/-- Python values as seen by the validators of fast.py: scalar strings,
pandas timestamps, ints, floats, and the list-likes (list, range, tuple,
`pd.DatetimeIndex`). -/
inductive PyVal where
  | str (s : String)
  | timestamp (t : Int)
  | intVal (n : Int)
  | floatVal (q : Int)
  | listVal (xs : List PyVal)
  | rangeVal (lo hi : Int)
  | tupleVal (xs : List PyVal)
  | dtIndex (ts : List Int)

/-- Python `isinstance(v, str)`. -/
def PyVal.isStr : PyVal → Bool
  | .str _ => true
  | _ => false

/-- Python `isinstance(v, int)`. -/
def PyVal.isInt : PyVal → Bool
  | .intVal _ => true
  | _ => false

/-- Python `isinstance(v, list)`. -/
def PyVal.isList : PyVal → Bool
  | .listVal _ => true
  | _ => false

/-- Python `isinstance(v, range)`. -/
def PyVal.isRange : PyVal → Bool
  | .rangeVal _ _ => true
  | _ => false

/-- Python `isinstance(v, pd.DatetimeIndex)`. -/
def PyVal.isDtIndex : PyVal → Bool
  | .dtIndex _ => true
  | _ => false

/-- Python `hasattr(v, "__len__")`: true for strings and the list-likes,
false for the scalars (timestamps, ints, floats). -/
def PyVal.hasLen : PyVal → Bool
  | .str _ => true
  | .listVal _ => true
  | .rangeVal _ _ => true
  | .tupleVal _ => true
  | .dtIndex _ => true
  | _ => false

/-- Python `len(v)`; `none` models `TypeError: object has no len()`. -/
def PyVal.pyLen : PyVal → Option Nat
  | .str s => some s.length
  | .listVal xs => some xs.length
  | .rangeVal lo hi => some (hi - lo).toNat
  | .tupleVal xs => some xs.length
  | .dtIndex ts => some ts.length
  | _ => none

/-- Python iteration `[x for x in v]`; `none` models `TypeError: not iterable`.
Iterating a string yields its characters as one-character strings. -/
def PyVal.pyIter : PyVal → Option (List PyVal)
  | .str s => some (s.toList.map fun c => PyVal.str (String.mk [c]))
  | .listVal xs => some xs
  | .rangeVal lo hi => some ((List.range (hi - lo).toNat).map fun i => PyVal.intVal (lo + i))
  | .tupleVal xs => some xs
  | .dtIndex ts => some (ts.map PyVal.timestamp)
  | _ => none

/-- Embedding of `_validate_fxx` (fast.py lines 35-43): wrap a bare int into a
one-element list, then require a list or range, else raise `ValueError`.
No validation of the elements of a list/range is performed. -/
def _validate_fxx (fxx : PyVal) : Except String PyVal :=
  let fxx := if fxx.isInt then PyVal.listVal [fxx] else fxx
  if fxx.isList || fxx.isRange then .ok fxx
  else .error "ValueError: fxx must be an int, list, or range"

/-- Embedding of `_validate_DATES` (fast.py lines 46-58): a string, or any value
without `__len__`, is parsed by `pd.to_datetime` (the parameter `toDT`; `none`
models a pandas parser error) and wrapped into a one-element list; the result
must then be a `list` or a `pd.DatetimeIndex`, else `ValueError` is raised. -/
def _validate_DATES (toDT : PyVal → Option Int) (DATES : PyVal) : Except String PyVal :=
  let coerced : Except String PyVal :=
    if DATES.isStr then
      match toDT DATES with
      | some t => .ok (PyVal.listVal [PyVal.timestamp t])
      | none => .error "ParserError: could not parse the date"
    else if !DATES.hasLen then
      match toDT DATES with
      | some t => .ok (PyVal.listVal [PyVal.timestamp t])
      | none => .error "ParserError: could not parse the date"
    else
      .ok DATES
  match coerced with
  | .error e => .error e
  | .ok DATES =>
    if DATES.isList || DATES.isDtIndex then .ok DATES
    else .error "ValueError: DATES must be a pandas-parsable datetime string or a list"

/-- Embedding of the prologue of `FastHerbie.__init__` (fast.py lines 127-144)
on raw Python arguments.  Lines 127-128 validate into `self.DATES`/`self.fxx`,
but line 134 computes `self.tasks = len(DATES) * len(fxx)` and lines 140-144
build the futures from the RAW parameters `DATES` and `fxx`, not from the
validated attributes.  Returns `(self.tasks, submitted task list)`. -/
def pyFastHerbieTasks (toDT : PyVal → Option Int) (DATES fxx : PyVal) :
    Except String (Nat × List (PyVal × PyVal)) := do
  let _selfDATES ← _validate_DATES toDT DATES
  let _selfFxx ← _validate_fxx fxx
  let nD ← match DATES.pyLen with
    | some n => pure n
    | none => Except.error "TypeError: object has no len()"
  let nF ← match fxx.pyLen with
    | some n => pure n
    | none => Except.error "TypeError: object has no len()"
  let ds ← match DATES.pyIter with
    | some l => pure l
    | none => Except.error "TypeError: object is not iterable"
  let fs ← match fxx.pyIter with
    | some l => pure l
    | none => Except.error "TypeError: object is not iterable"
  .ok (nD * nF, ds.flatMap fun d => fs.map fun f => (d, f))

/-- A task of the batch resolver: a `(date, fxx)` pair.  Dates are integer
timestamps (pandas timestamps are totally ordered; only order matters here). -/
abbrev Task := Int × Int

/-- Outcome of one `Herbie(date=DATE, fxx=f, **kwargs)` construction: the
future raised, or it resolved to an object whose `.grib` attribute is the
found artifact reference (`none` when no GRIB file was found). -/
inductive TaskOutcome where
  | raised
  | resolved (grib : Option Nat)
deriving DecidableEq, Repr

/-- Whether the future completed without exception (`future.exception() is None`,
fast.py line 148). -/
def TaskOutcome.ok : TaskOutcome → Bool
  | .raised => false
  | .resolved _ => true

/-- The `.grib` attribute of the resolved object (`none` for a raised task,
which never contributes an object). -/
def TaskOutcome.grib : TaskOutcome → Option Nat
  | .raised => none
  | .resolved g => g

/-- The submitted futures list (fast.py lines 140-144): for each date in order,
for each lead in order, one task. -/
def crossTasks (DATES : List Int) (fxx : List Int) : List Task :=
  DATES.flatMap fun d => fxx.map fun f => (d, f)

/-- Sort key of fast.py line 156: `key=lambda H: H.fxx`. -/
def fxxLe (a b : Task) : Prop := a.2 ≤ b.2

/-- Sort key of fast.py line 157: `key=lambda H: H.date`. -/
def dateLe (a b : Task) : Prop := a.1 ≤ b.1

/-- The ordering the spec claims for the resolved collection: primarily by
date ascending, secondarily by lead ascending. -/
def dateFxxLe (a b : Task) : Prop := a.1 < b.1 ∨ (a.1 = b.1 ∧ a.2 ≤ b.2)

instance : DecidableRel fxxLe := fun a b => inferInstanceAs (Decidable (a.2 ≤ b.2))

instance : DecidableRel dateLe := fun a b => inferInstanceAs (Decidable (a.1 ≤ b.1))

instance : DecidableRel dateFxxLe :=
  fun a b => inferInstanceAs (Decidable (a.1 < b.1 ∨ (a.1 = b.1 ∧ a.2 ≤ b.2)))

/-- Embedding of fast.py lines 156-157: Python's `list.sort` is stable, so a
stable sort by `fxx` followed by a stable sort by `date` (insertion sort is
stable, like CPython's sort). -/
def pySort2 (l : List Task) : List Task :=
  (l.insertionSort fxxLe).insertionSort dateLe

/-- The state of a `FastHerbie` instance after `__init__` (fast.py lines
127-163): the validated inputs, `self.tasks`, the sorted resolved objects,
and the `file_exists`/`file_not_exists` partitions. -/
structure FHBatch where
  DATES : List Int
  fxx : List Int
  tasks : Nat
  objects : List Task
  file_exists : List Task
  file_not_exists : List Task
deriving DecidableEq, Repr

/-- Embedding of `FastHerbie.__init__` (fast.py lines 127-168) for arguments
that are already lists (on which lines 127-128 are the identity).  `oracle`
gives each task's construction outcome, `sched` the worker-completion order of
`as_completed` (theorems quantify over all permutations).  `ThreadPoolExecutor`
(line 139) raises `ValueError` when the worker count `min(tasks, max_threads)`
is zero.  Lines 147-151 keep, in completion order, exactly the futures that did
not raise; lines 156-157 stably sort by fxx then by date; lines 162-163
partition on `H.grib is (not) None`. -/
def fastHerbie (oracle : Task → TaskOutcome) (sched : List Task → List Task)
    (DATES : List Int) (fxx : List Int) (max_threads : Nat) :
    Except String FHBatch :=
  let tasks := DATES.length * fxx.length
  let threads := min tasks max_threads
  if threads = 0 then .error "ValueError: max_workers must be greater than 0"
  else
    let futures := crossTasks DATES fxx
    let collected := (sched futures).filter fun t => (oracle t).ok
    let objects := pySort2 collected
    .ok ⟨DATES, fxx, tasks, objects,
      objects.filter (fun t => ((oracle t).grib).isSome),
      objects.filter (fun t => ((oracle t).grib).isNone)⟩

/-- Python slice chunking `[l[x:x+L] for x in range(0, len(l), L)]` for a
positive step `L`. -/
def chunkBy (L : Nat) (l : List α) : List (List α) :=
  if _h : 0 < L ∧ 0 < l.length then
    l.take L :: chunkBy L (l.drop L)
  else []
termination_by l.length
decreasing_by
  simp only [List.length_drop]
  omega

/-- Embedding of `FastHerbie.df` (fast.py lines 174-185): chunk `self.objects`
into rows of `len(self.fxx)` (the `range` step of line 181 raises `ValueError`
when `len(self.fxx)` is zero), then build a DataFrame with `index=self.DATES`,
which raises `ValueError` unless there is exactly one row per date.  Row `i` is
labelled by `self.DATES[i]` and column `j` by `self.fxx[j]`. -/
def FHBatch.dfGrid (b : FHBatch) : Except String (List (List Task)) :=
  if b.fxx.length = 0 then .error "ValueError: range() arg 3 must not be zero"
  else
    let rows := chunkBy b.fxx.length b.objects
    if rows.length = b.DATES.length then .ok rows
    else .error "ValueError: Shape of passed values does not match indices"

/-- Cell `(i, j)` of a row-major grid. -/
def gridCell (g : List (List Task)) (i j : Nat) : Option Task :=
  (g[i]?).bind fun row => row[j]?

/-- Embedding of `FastHerbie.download` (fast.py lines 201-244): a worker pool of
`min(self.tasks, max_threads)` threads (note: `self.tasks`, not the number of
existing files) runs `H.download` over `self.file_exists`; results are gathered
in completion order (`sched`), and a future that raised (`dl t = none`) is
logged and skipped (lines 238-242). -/
def FHBatch.download (b : FHBatch) (dl : Task → Option Nat)
    (sched : List Task → List Task) (max_threads : Nat) :
    Except String (List Nat) :=
  let threads := min b.tasks max_threads
  if threads = 0 then .error "ValueError: max_workers must be greater than 0"
  else .ok ((sched b.file_exists).filterMap dl)

/-- Embedding of the probe window of `Herbie_latest` (fast.py lines 79-84):
`current = now floored to freq`, then
`pd.date_range(start=current - freq * n, end=current, freq=freq)`, which
contains the `n + 1` timestamps `current - freq * n + freq * i` for
`i = 0, ..., n` (both endpoints inclusive). -/
def latestWindow (now : Int) (n : Nat) (freq : Int) : List Int :=
  let current := freq * (Int.fdiv now freq)
  (List.range (n + 1)).map fun (i : Nat) => current - freq * (n : Int) + freq * (i : Int)

/-- Embedding of `Herbie_latest` (fast.py lines 61-86): run `FastHerbie` over
the trailing window with the default lead list `[0]` and default
`max_threads = 50`, and return `FH.file_exists[-1]`, which raises `IndexError`
when no file in the window exists. -/
def Herbie_latest (oracle : Task → TaskOutcome) (sched : List Task → List Task)
    (now : Int) (n : Nat) (freq : Int) : Except String Task :=
  match fastHerbie oracle sched (latestWindow now n freq) [0] 50 with
  | .error e => .error e
  | .ok FH =>
    match FH.file_exists.getLast? with
    | none => .error "IndexError: list index out of range"
    | some H => .ok H

/-- Sample stand-in for `pd.to_datetime`: every string and every scalar parses
(the parsed value is immaterial to the claims it is used for). -/
def sampleToDT : PyVal → Option Int
  | .str _ => some 18628
  | .timestamp t => some t
  | .intVal n => some n
  | _ => none

/-- Oracle under which every task resolves and its GRIB file is found. -/
def allFound : Task → TaskOutcome := fun _ => .resolved (some 1)

/-- Oracle under which every task raises. -/
def allRaised : Task → TaskOutcome := fun _ => .raised

/-- Oracle mixing raising, found, and missing outcomes. -/
def demoOracle : Task → TaskOutcome := fun t =>
  if t.1 = 0 ∧ t.2 = 2 then .raised
  else if t.2 = 0 then .resolved (some 7)
  else .resolved none

/-- Download operation that fails on lead 2 and succeeds elsewhere. -/
def demoDownload : Task → Option Nat := fun t =>
  if t.2 = 2 then none else some (100 + (t.1 + t.2).toNat)

/-! ## Helper lemmas about the ordering and the stable two-pass sort -/

instance : IsTotal Task fxxLe := ⟨fun a b => Int.le_total a.2 b.2⟩

instance : IsTrans Task fxxLe := ⟨fun _ _ _ h₁ h₂ => le_trans h₁ h₂⟩

instance : IsTotal Task dateLe := ⟨fun a b => Int.le_total a.1 b.1⟩

instance : IsTrans Task dateLe := ⟨fun _ _ _ h₁ h₂ => le_trans h₁ h₂⟩

instance : IsAntisymm Task dateFxxLe := ⟨by
  rintro ⟨a1, a2⟩ ⟨b1, b2⟩ h h'
  simp only [dateFxxLe] at h h'
  have hh : a1 = b1 ∧ a2 = b2 := by omega
  simp [Prod.ext_iff, hh.1, hh.2]⟩

theorem dateFxxLe_date_le {a b : Task} (h : dateFxxLe a b) : a.1 ≤ b.1 := by
  rcases h with h | ⟨h, _⟩
  · exact le_of_lt h
  · exact le_of_eq h

/-- Stability step behind fast.py lines 156-157: inserting `x` by date into a
date-then-fxx sorted list all of whose elements have fxx at least `x.2`
preserves date-then-fxx sortedness. -/
theorem orderedInsert_dateFxx_sorted {x : Task} {l : List Task}
    (hl : l.Sorted dateFxxLe) (hx : ∀ y ∈ l, x.2 ≤ y.2) :
    (List.orderedInsert dateLe x l).Sorted dateFxxLe := by
  induction l with
  | nil => simp [List.sorted_singleton]
  | cons y ys ih =>
    rw [List.sorted_cons] at hl
    obtain ⟨hy, hys⟩ := hl
    by_cases hxy : dateLe x y
    · rw [List.orderedInsert, if_pos hxy]
      refine List.sorted_cons.mpr ⟨?_, List.sorted_cons.mpr ⟨hy, hys⟩⟩
      intro z hz
      have hxz1 : x.1 ≤ z.1 := by
        rcases List.mem_cons.mp hz with rfl | hz'
        · exact hxy
        · exact le_trans hxy (dateFxxLe_date_le (hy z hz'))
      rcases lt_or_eq_of_le hxz1 with hlt | heq
      · exact Or.inl hlt
      · exact Or.inr ⟨heq, hx z hz⟩
    · rw [List.orderedInsert, if_neg hxy]
      simp only [dateLe, not_le] at hxy
      refine List.sorted_cons.mpr
        ⟨?_, ih hys fun z hz => hx z (List.mem_cons_of_mem _ hz)⟩
      intro z hz
      rcases (List.mem_orderedInsert dateLe).mp hz with rfl | hz'
      · exact Or.inl hxy
      · exact hy z hz'

/-- Stably re-sorting an fxx-sorted list by date yields a list sorted by date
first, fxx second. -/
theorem insertionSort_dateLe_sorted {m : List Task} (hm : m.Sorted fxxLe) :
    (List.insertionSort dateLe m).Sorted dateFxxLe := by
  induction m with
  | nil => simp
  | cons x xs ih =>
    rw [List.sorted_cons] at hm
    rw [List.insertionSort]
    exact orderedInsert_dateFxx_sorted (ih hm.2)
      fun y hy => hm.1 y ((List.mem_insertionSort dateLe).mp hy)

/-- The two-pass sort of fast.py lines 156-157 sorts primarily by date
ascending, secondarily by fxx ascending. -/
theorem pySort2_sorted (l : List Task) : (pySort2 l).Sorted dateFxxLe :=
  insertionSort_dateLe_sorted (List.sorted_insertionSort fxxLe l)

theorem pySort2_perm (l : List Task) : (pySort2 l).Perm l :=
  (List.perm_insertionSort dateLe _).trans (List.perm_insertionSort fxxLe l)

/-- The two-pass sort is deterministic across permutations of its input:
completion order cannot influence the sorted result. -/
theorem pySort2_eq_of_perm {l₁ l₂ : List Task} (h : l₁.Perm l₂) :
    pySort2 l₁ = pySort2 l₂ :=
  List.eq_of_perm_of_sorted (((pySort2_perm l₁).trans h).trans (pySort2_perm l₂).symm)
    (pySort2_sorted l₁) (pySort2_sorted l₂)

theorem pySort2_eq_self {l : List Task} (h : l.Sorted dateFxxLe) : pySort2 l = l :=
  List.eq_of_perm_of_sorted (pySort2_perm l) (pySort2_sorted l) h

/-! ## Helper lemmas about the batch construction -/

theorem fastHerbie_eq_ok (oracle : Task → TaskOutcome) (sched : List Task → List Task)
    (DATES fxx : List Int) (mt : Nat)
    (h : 0 < min (DATES.length * fxx.length) mt) :
    fastHerbie oracle sched DATES fxx mt =
      .ok ⟨DATES, fxx, DATES.length * fxx.length,
        pySort2 ((sched (crossTasks DATES fxx)).filter fun t => (oracle t).ok),
        (pySort2 ((sched (crossTasks DATES fxx)).filter fun t => (oracle t).ok)).filter
          (fun t => ((oracle t).grib).isSome),
        (pySort2 ((sched (crossTasks DATES fxx)).filter fun t => (oracle t).ok)).filter
          (fun t => ((oracle t).grib).isNone)⟩ := by
  unfold fastHerbie
  rw [if_neg (by omega)]

theorem crossTasks_length (DATES fxx : List Int) :
    (crossTasks DATES fxx).length = DATES.length * fxx.length := by
  induction DATES with
  | nil => simp [crossTasks]
  | cons d ds ih =>
    simp only [crossTasks, List.flatMap_cons, List.length_append, List.length_map,
      List.length_cons] at ih ⊢
    rw [ih]
    ring

theorem mem_crossTasks {t : Task} {DATES fxx : List Int} :
    t ∈ crossTasks DATES fxx ↔ t.1 ∈ DATES ∧ t.2 ∈ fxx := by
  constructor
  · intro h
    obtain ⟨d, hd, ht⟩ := List.mem_flatMap.mp h
    obtain ⟨f, hf, rfl⟩ := List.mem_map.mp ht
    exact ⟨hd, hf⟩
  · intro ⟨h1, h2⟩
    exact List.mem_flatMap.mpr ⟨t.1, h1, List.mem_map.mpr ⟨t.2, h2, rfl⟩⟩

/-- When the dates are strictly ascending and the leads ascending, the
submitted futures list is already in the canonical date-then-fxx order. -/
theorem crossTasks_sorted {DATES fxx : List Int} (hD : DATES.Sorted (· < ·))
    (hf : fxx.Sorted (· ≤ ·)) : (crossTasks DATES fxx).Sorted dateFxxLe := by
  induction DATES with
  | nil => simp [crossTasks, List.Sorted]
  | cons d ds ih =>
    rw [List.sorted_cons] at hD
    show ((fxx.map fun f => ((d : Int), f)) ++ crossTasks ds fxx).Pairwise dateFxxLe
    rw [List.pairwise_append]
    refine ⟨?_, ih hD.2, ?_⟩
    · rw [List.pairwise_map]
      exact hf.imp fun h => Or.inr ⟨rfl, h⟩
    · intro a ha b hb
      obtain ⟨f, _, rfl⟩ := List.mem_map.mp ha
      exact Or.inl (hD.1 _ (mem_crossTasks.mp hb).1)

/-! ## Helper lemmas about chunking -/

theorem chunkBy_nil (L : Nat) : chunkBy L ([] : List α) = [] := by
  unfold chunkBy
  simp

theorem chunkBy_block {L : Nat} (hL : 0 < L) (a rest : List α) (ha : a.length = L) :
    chunkBy L (a ++ rest) = a :: chunkBy L rest := by
  rw [chunkBy]
  have hne : 0 < (a ++ rest).length := by
    simp only [List.length_append]
    omega
  rw [dif_pos ⟨hL, hne⟩]
  subst ha
  rw [List.take_left, List.drop_left]

theorem chunkBy_crossTasks {DATES fxx : List Int} (hf : 0 < fxx.length) :
    chunkBy fxx.length (crossTasks DATES fxx) =
      DATES.map fun d => fxx.map fun f => (d, f) := by
  induction DATES with
  | nil => simp [crossTasks, chunkBy_nil]
  | cons d ds ih =>
    show chunkBy fxx.length ((fxx.map fun f => ((d : Int), f)) ++ crossTasks ds fxx) = _
    rw [chunkBy_block hf _ _ (by simp), ih]
    rfl

/-! ## Miscellaneous list lemmas -/

theorem length_filterMap_add_none (f : α → Option β) (l : List α) :
    (l.filterMap f).length + (l.filter fun x => (f x).isNone).length = l.length := by
  induction l with
  | nil => rfl
  | cons x xs ih =>
    rw [List.filterMap_cons, List.filter_cons]
    cases h : f x with
    | none =>
      simp [h]
      omega
    | some b =>
      simp [h]
      omega

theorem filter_isSome_isNone_perm (g : Task → Option Nat) (l : List Task) :
    (l.filter (fun t => (g t).isSome) ++ l.filter (fun t => (g t).isNone)).Perm l := by
  have hcong : l.filter (fun t => (g t).isNone) = l.filter (fun t => !(g t).isSome) :=
    List.filter_congr fun t _ => by cases g t <;> rfl
  rw [hcong]
  exact List.filter_append_perm _ l

theorem pairwise_rel_getLast {α : Type _} {r : α → α → Prop} {l : List α} {t : α}
    (h : l.Pairwise r) (ht : l.getLast? = some t) :
    ∀ x ∈ l, x = t ∨ r x t := by
  induction l with
  | nil => simp at ht
  | cons y ys ih =>
    rw [List.pairwise_cons] at h
    cases ys with
    | nil =>
      simp only [List.getLast?_singleton, Option.some.injEq] at ht
      subst ht
      simp
    | cons z zs =>
      rw [List.getLast?_cons_cons] at ht
      intro x hx
      rcases List.mem_cons.mp hx with rfl | hx'
      · exact Or.inr (h.1 t (List.mem_of_getLast?_eq_some ht))
      · exact ih h.2 ht x hx'

/-! ## Claims about the input validators -/

/-- C10: `_validate_fxx` returns every list and every range unchanged and
performs no validation of element types — a list whose elements are strings or
floats is accepted — even though a bare string or float scalar is rejected
with `ValueError`. -/
theorem validate_fxx_identity_no_element_check (v : PyVal)
    (h : v.isList = true ∨ v.isRange = true) :
    _validate_fxx v = .ok v ∧
    _validate_fxx (.listVal [.str "a", .floatVal 1]) =
      .ok (.listVal [.str "a", .floatVal 1]) ∧
    _validate_fxx (.str "a") = .error "ValueError: fxx must be an int, list, or range" ∧
    _validate_fxx (.floatVal 1) = .error "ValueError: fxx must be an int, list, or range" := by
  refine ⟨?_, rfl, rfl, rfl⟩
  rcases h with h | h <;>
    cases v <;>
      simp_all [_validate_fxx, PyVal.isList, PyVal.isInt, PyVal.isRange]

/-- Witness for C10 at a concrete list and range. -/
theorem validate_fxx_identity_witness :
    _validate_fxx (.listVal [.intVal 0, .intVal 6]) = .ok (.listVal [.intVal 0, .intVal 6]) ∧
    _validate_fxx (.listVal [.str "a", .floatVal 1]) =
      .ok (.listVal [.str "a", .floatVal 1]) ∧
    _validate_fxx (.str "a") = .error "ValueError: fxx must be an int, list, or range" ∧
    _validate_fxx (.floatVal 1) = .error "ValueError: fxx must be an int, list, or range" :=
  validate_fxx_identity_no_element_check (.listVal [.intVal 0, .intVal 6]) (Or.inl rfl)

/-- C9 counterexample: a tuple of parsable timestamps is a sequence with a
length (so it is list-like and is not coerced), yet `_validate_DATES`
rejects it with `ValueError`. -/
theorem validate_DATES_tuple_rejected :
    (PyVal.tupleVal [.timestamp 0]).hasLen = true ∧
    sampleToDT (.timestamp 0) = some 0 ∧
    _validate_DATES sampleToDT (.tupleVal [.timestamp 0]) =
      .error "ValueError: DATES must be a pandas-parsable datetime string or a list" :=
  ⟨rfl, rfl, rfl⟩

/-- C9 (amended): `_validate_DATES` accepts every single parsable value — a
string, or any scalar lacking a length, is parsed and wrapped into a
one-element list — and it accepts an uncoerced value exactly when that value
is a `list` or a `pd.DatetimeIndex`; any other value with a length (such as a
tuple) is rejected with `ValueError` even though it is list-like. -/
theorem validate_DATES_characterization (toDT : PyVal → Option Int) (v : PyVal) (t : Int) :
    (v.isStr = true → toDT v = some t →
      _validate_DATES toDT v = .ok (.listVal [.timestamp t])) ∧
    (v.hasLen = false → toDT v = some t →
      _validate_DATES toDT v = .ok (.listVal [.timestamp t])) ∧
    (v.isStr = false → v.hasLen = true →
      ((v.isList || v.isDtIndex) = true → _validate_DATES toDT v = .ok v) ∧
      ((v.isList || v.isDtIndex) = false →
        _validate_DATES toDT v =
          .error "ValueError: DATES must be a pandas-parsable datetime string or a list")) := by
  refine ⟨?_, ?_, ?_⟩
  · intro h1 h2
    cases v <;> simp_all [_validate_DATES, PyVal.isStr, PyVal.isList, PyVal.isDtIndex]
  · intro h1 h2
    cases v <;>
      simp_all [_validate_DATES, PyVal.isStr, PyVal.hasLen, PyVal.isList, PyVal.isDtIndex]
  · intro h1 h2
    constructor <;> intro h3 <;>
      cases v <;>
        simp_all [_validate_DATES, PyVal.isStr, PyVal.hasLen, PyVal.isList, PyVal.isDtIndex]

/-- Witness for C9 (amended): a parsable string, a parsable lengthless scalar,
a list, and a tuple. -/
theorem validate_DATES_characterization_witness :
    _validate_DATES sampleToDT (.str "2021-01-01") = .ok (.listVal [.timestamp 18628]) ∧
    _validate_DATES sampleToDT (.timestamp 7) = .ok (.listVal [.timestamp 7]) ∧
    _validate_DATES sampleToDT (.listVal [.timestamp 3]) = .ok (.listVal [.timestamp 3]) ∧
    _validate_DATES sampleToDT (.tupleVal [.timestamp 3]) =
      .error "ValueError: DATES must be a pandas-parsable datetime string or a list" :=
  ⟨(validate_DATES_characterization sampleToDT (.str "2021-01-01") 18628).1 rfl rfl,
   (validate_DATES_characterization sampleToDT (.timestamp 7) 7).2.1 rfl rfl,
   ((validate_DATES_characterization sampleToDT (.listVal [.timestamp 3]) 0).2.2 rfl rfl).1 rfl,
   ((validate_DATES_characterization sampleToDT (.tupleVal [.timestamp 3]) 0).2.2 rfl rfl).2 rfl⟩

/-- C1 (code bug): the scalar-accepting entry point does not behave like
passing one-element lists.  With `DATES = "2021-01-01"` (a parsable string)
and `fxx = 0` (a bare int) both validators succeed, yet `__init__` computes
`self.tasks` and the futures from the raw arguments (fast.py lines 134 and
141-143, which use `DATES`/`fxx` instead of `self.DATES`/`self.fxx`): `len(0)`
raises `TypeError`, and with `fxx = [0]` the raw string is iterated character
by character, yielding `len("2021-01-01") * 1 = 10` tasks instead of
`1 × 1 = 1`; a lengthless scalar date such as a bare timestamp also raises
`TypeError` at `len(DATES)`. -/
theorem fastHerbie_scalar_inputs_bug :
    _validate_DATES sampleToDT (.str "2021-01-01") = .ok (.listVal [.timestamp 18628]) ∧
    _validate_fxx (.intVal 0) = .ok (.listVal [.intVal 0]) ∧
    pyFastHerbieTasks sampleToDT (.str "2021-01-01") (.intVal 0) =
      .error "TypeError: object has no len()" ∧
    (∃ r, pyFastHerbieTasks sampleToDT (.str "2021-01-01") (.listVal [.intVal 0]) = .ok r ∧
      r.1 = 10 ∧ r.2.length = 10) ∧
    pyFastHerbieTasks sampleToDT (.timestamp 5) (.listVal [.intVal 0]) =
      .error "TypeError: object has no len()" ∧
    (10 : Nat) ≠ 1 :=
  ⟨rfl, rfl, rfl, ⟨_, rfl, rfl, rfl⟩, rfl, by decide⟩

/-! ## Claims about the batch resolver -/

theorem fastHerbie_eq_error (oracle : Task → TaskOutcome) (sched : List Task → List Task)
    (DATES fxx : List Int) (mt : Nat)
    (h : min (DATES.length * fxx.length) mt = 0) :
    fastHerbie oracle sched DATES fxx mt =
      .error "ValueError: max_workers must be greater than 0" := by
  unfold fastHerbie
  rw [if_pos h]

theorem fastHerbie_ok_fields (oracle : Task → TaskOutcome) (sched : List Task → List Task)
    (DATES fxx : List Int) (mt : Nat) (b : FHBatch)
    (hb : fastHerbie oracle sched DATES fxx mt = .ok b) :
    b.DATES = DATES ∧ b.fxx = fxx ∧
    b.objects = pySort2 ((sched (crossTasks DATES fxx)).filter fun t => (oracle t).ok) ∧
    b.file_exists = b.objects.filter (fun t => ((oracle t).grib).isSome) ∧
    b.file_not_exists = b.objects.filter (fun t => ((oracle t).grib).isNone) := by
  unfold fastHerbie at hb
  by_cases h : min (DATES.length * fxx.length) mt = 0
  · rw [if_pos h] at hb
    exact absurd hb (by simp)
  · rw [if_neg h] at hb
    simp only [Except.ok.injEq] at hb
    subst hb
    exact ⟨rfl, rfl, rfl, rfl, rfl⟩

/-- C2: the batch produced by `__init__` does not depend on the
worker-completion order — any two permutations of the futures give identical
batches — and the resolved collection, hence both partitions, is sorted
primarily by date ascending and secondarily by lead ascending. -/
theorem fastHerbie_order_deterministic (oracle : Task → TaskOutcome)
    (sched₁ sched₂ : List Task → List Task) (DATES fxx : List Int) (mt : Nat)
    (h₁ : (sched₁ (crossTasks DATES fxx)).Perm (crossTasks DATES fxx))
    (h₂ : (sched₂ (crossTasks DATES fxx)).Perm (crossTasks DATES fxx)) :
    fastHerbie oracle sched₁ DATES fxx mt = fastHerbie oracle sched₂ DATES fxx mt ∧
    ∀ b, fastHerbie oracle sched₁ DATES fxx mt = .ok b →
      b.objects.Sorted dateFxxLe ∧ b.file_exists.Sorted dateFxxLe ∧
      b.file_not_exists.Sorted dateFxxLe := by
  have hperm : ((sched₁ (crossTasks DATES fxx)).filter fun t => (oracle t).ok).Perm
      ((sched₂ (crossTasks DATES fxx)).filter fun t => (oracle t).ok) :=
    (h₁.filter _).trans (h₂.filter _).symm
  have hsort := pySort2_eq_of_perm hperm
  by_cases h : min (DATES.length * fxx.length) mt = 0
  · refine ⟨?_, ?_⟩
    · rw [fastHerbie_eq_error oracle sched₁ DATES fxx mt h,
        fastHerbie_eq_error oracle sched₂ DATES fxx mt h]
    · intro b hb
      rw [fastHerbie_eq_error oracle sched₁ DATES fxx mt h] at hb
      exact absurd hb (by simp)
  · have hpos : 0 < min (DATES.length * fxx.length) mt := Nat.pos_of_ne_zero h
    refine ⟨?_, ?_⟩
    · rw [fastHerbie_eq_ok oracle sched₁ DATES fxx mt hpos,
        fastHerbie_eq_ok oracle sched₂ DATES fxx mt hpos, hsort]
    · intro b hb
      rw [fastHerbie_eq_ok oracle sched₁ DATES fxx mt hpos] at hb
      simp only [Except.ok.injEq] at hb
      subst hb
      exact ⟨pySort2_sorted _, (pySort2_sorted _).filter _, (pySort2_sorted _).filter _⟩

/-- Witness for C2: reversed and identity completion orders of a concrete
batch give the same result. -/
theorem fastHerbie_order_deterministic_witness :
    fastHerbie demoOracle (fun l => l.reverse) [0, 1] [0, 2] 50 =
      fastHerbie demoOracle id [0, 1] [0, 2] 50 ∧
    ∀ b, fastHerbie demoOracle (fun l => l.reverse) [0, 1] [0, 2] 50 = .ok b →
      b.objects.Sorted dateFxxLe ∧ b.file_exists.Sorted dateFxxLe ∧
      b.file_not_exists.Sorted dateFxxLe :=
  fastHerbie_order_deterministic demoOracle (fun l => l.reverse) id [0, 1] [0, 2] 50
    (List.reverse_perm _) (List.Perm.refl _)

/-- C3: the existing and missing collections partition the resolved set by
presence of the artifact reference, are disjoint, their union is (a
reordering of) the full resolved set, and every submitted task contributes at
most one item — a raised task contributes none. -/
theorem fastHerbie_partition (oracle : Task → TaskOutcome) (sched : List Task → List Task)
    (DATES fxx : List Int) (mt : Nat)
    (hs : (sched (crossTasks DATES fxx)).Perm (crossTasks DATES fxx))
    (ht : 0 < min (DATES.length * fxx.length) mt) :
    ∃ b, fastHerbie oracle sched DATES fxx mt = .ok b ∧
      (∀ t ∈ b.file_exists, ((oracle t).grib).isSome = true) ∧
      (∀ t ∈ b.file_not_exists, (oracle t).grib = none) ∧
      (∀ t, ¬(t ∈ b.file_exists ∧ t ∈ b.file_not_exists)) ∧
      (∀ t ∈ b.objects, t ∈ b.file_exists ∨ t ∈ b.file_not_exists) ∧
      (b.file_exists ++ b.file_not_exists).Perm b.objects ∧
      (∀ t, b.objects.count t ≤ (crossTasks DATES fxx).count t) ∧
      (∀ t, oracle t = .raised → t ∉ b.objects) := by
  refine ⟨_, fastHerbie_eq_ok oracle sched DATES fxx mt ht, ?_, ?_, ?_, ?_, ?_, ?_, ?_⟩
  · intro t htm
    exact (List.mem_filter.mp htm).2
  · intro t htm
    exact Option.isNone_iff_eq_none.mp (List.mem_filter.mp htm).2
  · intro t ⟨he, hn⟩
    have h1 := (List.mem_filter.mp he).2
    have h2 := (List.mem_filter.mp hn).2
    rw [Option.isNone_iff_eq_none.mp h2] at h1
    exact absurd h1 (by simp)
  · intro t htm
    by_cases h : ((oracle t).grib).isSome = true
    · exact Or.inl (List.mem_filter.mpr ⟨htm, h⟩)
    · exact Or.inr (List.mem_filter.mpr ⟨htm, by simp_all⟩)
  · exact filter_isSome_isNone_perm (fun t => (oracle t).grib) _
  · intro t
    have hp : (pySort2 ((sched (crossTasks DATES fxx)).filter fun t => (oracle t).ok)).Perm
        ((crossTasks DATES fxx).filter fun t => (oracle t).ok) :=
      (pySort2_perm _).trans (hs.filter _)
    exact le_trans (le_of_eq (hp.countP_eq (fun x => x == t)))
      ((List.filter_sublist _).count_le t)
  · intro t hraised htm
    have hp : (pySort2 ((sched (crossTasks DATES fxx)).filter fun t => (oracle t).ok)).Perm
        ((crossTasks DATES fxx).filter fun t => (oracle t).ok) :=
      (pySort2_perm _).trans (hs.filter _)
    have := (List.mem_filter.mp (hp.mem_iff.mp htm)).2
    rw [hraised] at this
    exact absurd this (by simp [TaskOutcome.ok])

/-- Witness for C3 at a concrete mixed-outcome batch. -/
theorem fastHerbie_partition_witness :
    ∃ b, fastHerbie demoOracle (fun l => l.reverse) [0, 1] [0, 2] 50 = .ok b ∧
      (∀ t ∈ b.file_exists, ((demoOracle t).grib).isSome = true) ∧
      (∀ t ∈ b.file_not_exists, (demoOracle t).grib = none) ∧
      (∀ t, ¬(t ∈ b.file_exists ∧ t ∈ b.file_not_exists)) ∧
      (∀ t ∈ b.objects, t ∈ b.file_exists ∨ t ∈ b.file_not_exists) ∧
      (b.file_exists ++ b.file_not_exists).Perm b.objects ∧
      (∀ t, b.objects.count t ≤ (crossTasks [0, 1] [0, 2]).count t) ∧
      (∀ t, demoOracle t = .raised → t ∉ b.objects) :=
  fastHerbie_partition demoOracle (fun l => l.reverse) [0, 1] [0, 2] 50
    (List.reverse_perm _) (by decide)

/-- C4 counterexample: when every task fails, `__init__` does not surface any
error to the caller; it returns a batch (with empty collections). -/
theorem fastHerbie_all_failed_returns_batch :
    fastHerbie allRaised id [0] [0] 50 = .ok ⟨[0], [0], 1, [], [], []⟩ ∧
    ∀ e, fastHerbie allRaised id [0] [0] 50 ≠ .error e := by
  refine ⟨rfl, fun e h => ?_⟩
  rw [show fastHerbie allRaised id [0] [0] 50 = .ok ⟨[0], [0], 1, [], [], []⟩ from rfl] at h
  exact Except.noConfusion h

/-- C4 (amended): when every task fails, `__init__` completes normally and
returns a batch whose resolved, existing, and missing collections are all
empty; the only resolver-level failure is pool construction (`ValueError`
when the thread count is zero), not an all-tasks-failed error. -/
theorem fastHerbie_all_failed_empty_batch (oracle : Task → TaskOutcome)
    (sched : List Task → List Task) (DATES fxx : List Int) (mt : Nat)
    (hs : (sched (crossTasks DATES fxx)).Perm (crossTasks DATES fxx))
    (ht : 0 < min (DATES.length * fxx.length) mt)
    (hall : ∀ t ∈ crossTasks DATES fxx, oracle t = .raised) :
    fastHerbie oracle sched DATES fxx mt =
      .ok ⟨DATES, fxx, DATES.length * fxx.length, [], [], []⟩ := by
  rw [fastHerbie_eq_ok oracle sched DATES fxx mt ht]
  have hfil : (sched (crossTasks DATES fxx)).filter (fun t => (oracle t).ok) = [] := by
    rw [List.filter_eq_nil_iff]
    intro t htm
    rw [hall t (hs.mem_iff.mp htm)]
    simp [TaskOutcome.ok]
  rw [hfil]
  rfl

/-- Witness for C4 (amended) at a concrete all-failing batch. -/
theorem fastHerbie_all_failed_empty_batch_witness :
    fastHerbie allRaised (fun l => l.reverse) [0, 1] [0] 50 =
      .ok ⟨[0, 1], [0], 2, [], [], []⟩ :=
  fastHerbie_all_failed_empty_batch allRaised (fun l => l.reverse) [0, 1] [0] 50
    (List.reverse_perm _) (by decide) (by decide)

/-- C5: when at least one task fails and at least one succeeds, `__init__`
does not raise: it returns a batch whose resolved collection consists of
exactly the successfully resolved items, every failing task being excluded. -/
theorem fastHerbie_partial_failure (oracle : Task → TaskOutcome)
    (sched : List Task → List Task) (DATES fxx : List Int) (mt : Nat)
    (hs : (sched (crossTasks DATES fxx)).Perm (crossTasks DATES fxx))
    (hmt : 0 < mt)
    (_hfail : ∃ t ∈ crossTasks DATES fxx, (oracle t).ok = false)
    (hsucc : ∃ t ∈ crossTasks DATES fxx, (oracle t).ok = true) :
    ∃ b, fastHerbie oracle sched DATES fxx mt = .ok b ∧
      b.objects.Perm ((crossTasks DATES fxx).filter fun t => (oracle t).ok) ∧
      (∀ t ∈ crossTasks DATES fxx, (oracle t).ok = false → t ∉ b.objects) := by
  obtain ⟨t₀, ht₀, _⟩ := hsucc
  have hlen : 0 < (crossTasks DATES fxx).length := List.length_pos.mpr (by
    intro hnil
    rw [hnil] at ht₀
    exact absurd ht₀ (List.not_mem_nil t₀))
  rw [crossTasks_length] at hlen
  have ht : 0 < min (DATES.length * fxx.length) mt := by omega
  refine ⟨_, fastHerbie_eq_ok oracle sched DATES fxx mt ht, ?_, ?_⟩
  · exact (pySort2_perm _).trans (hs.filter _)
  · intro t _ hbad htm
    have hp : (pySort2 ((sched (crossTasks DATES fxx)).filter fun t => (oracle t).ok)).Perm
        ((crossTasks DATES fxx).filter fun t => (oracle t).ok) :=
      (pySort2_perm _).trans (hs.filter _)
    have := (List.mem_filter.mp (hp.mem_iff.mp htm)).2
    rw [hbad] at this
    exact absurd this (by simp)

/-- Witness for C5 at a concrete batch with one raising task and three
resolving tasks. -/
theorem fastHerbie_partial_failure_witness :
    ∃ b, fastHerbie demoOracle (fun l => l.reverse) [0, 1] [0, 2] 50 = .ok b ∧
      b.objects.Perm ((crossTasks [0, 1] [0, 2]).filter fun t => (demoOracle t).ok) ∧
      (∀ t ∈ crossTasks [0, 1] [0, 2], (demoOracle t).ok = false → t ∉ b.objects) :=
  fastHerbie_partial_failure demoOracle (fun l => l.reverse) [0, 1] [0, 2] 50
    (List.reverse_perm _) (by decide) (by decide) (by decide)

/-! ## Claims about the tabular reshape -/

theorem chunkBy_cons_of_pos {L : Nat} (hL : 0 < L) (x : α) (xs : List α) :
    chunkBy L (x :: xs) = (x :: xs).take L :: chunkBy L ((x :: xs).drop L) := by
  rw [chunkBy]
  rw [dif_pos ⟨hL, by simp⟩]

theorem chunkBy_one_cons (x : α) (xs : List α) :
    chunkBy 1 (x :: xs) = [x] :: chunkBy 1 xs := by
  rw [chunkBy_cons_of_pos Nat.one_pos]
  simp

/-- C6 counterexample: with the unsorted date axis `[1, 0]` and leads `[0]`,
no task failing and no item missing, cell `(0, 0)` of the grid holds the
resolved item of task `(0, 0)`, not the item of task
`(dates[0], leads[0]) = (1, 0)` that the claim demands. -/
theorem fastHerbie_df_cell_mismatch :
    fastHerbie allFound id [1, 0] [0] 50 =
      .ok ⟨[1, 0], [0], 2, [(0, 0), (1, 0)], [(0, 0), (1, 0)], []⟩ ∧
    FHBatch.dfGrid ⟨[1, 0], [0], 2, [(0, 0), (1, 0)], [(0, 0), (1, 0)], []⟩ =
      .ok [[((0 : Int), (0 : Int))], [((1 : Int), (0 : Int))]] ∧
    gridCell [[((0 : Int), (0 : Int))], [((1 : Int), (0 : Int))]] 0 0 = some (0, 0) ∧
    (((1 : Int), (0 : Int)) : Task) ≠ ((0 : Int), (0 : Int)) := by
  refine ⟨rfl, ?_, rfl, by decide⟩
  simp [FHBatch.dfGrid, chunkBy_one_cons, chunkBy_nil]

/-- C6 (amended): for a batch whose date axis is strictly ascending and lead
axis ascending, with no failed task and no missing item, `df` produces a grid
of exactly one row per date and one column per lead, and cell `(i, j)` holds
the resolved item of task `(dates[i], leads[j])`. -/
theorem fastHerbie_df_grid_sorted_inputs (oracle : Task → TaskOutcome)
    (sched : List Task → List Task) (DATES fxx : List Int) (mt : Nat)
    (hs : (sched (crossTasks DATES fxx)).Perm (crossTasks DATES fxx))
    (hmt : 0 < mt) (hD : 0 < DATES.length) (hL : 0 < fxx.length)
    (hDsort : DATES.Sorted (· < ·)) (hfsort : fxx.Sorted (· ≤ ·))
    (hok : ∀ t ∈ crossTasks DATES fxx, (oracle t).ok = true)
    (hfound : ∀ t ∈ crossTasks DATES fxx, ((oracle t).grib).isSome = true) :
    ∃ b, fastHerbie oracle sched DATES fxx mt = .ok b ∧
      b.objects = crossTasks DATES fxx ∧
      b.file_not_exists = [] ∧
      b.dfGrid = .ok (DATES.map fun d => fxx.map fun f => (d, f)) ∧
      (DATES.map fun d => fxx.map fun f => ((d : Int), f)).length = DATES.length ∧
      (∀ row ∈ DATES.map fun d => fxx.map fun f => ((d : Int), f),
        row.length = fxx.length) ∧
      ∀ (i : Fin DATES.length) (j : Fin fxx.length),
        gridCell (DATES.map fun d => fxx.map fun f => (d, f)) i j =
          some (DATES.get i, fxx.get j) := by
  have hfs : (sched (crossTasks DATES fxx)).filter (fun t => (oracle t).ok) =
      sched (crossTasks DATES fxx) :=
    List.filter_eq_self.mpr fun t htm => hok t (hs.mem_iff.mp htm)
  have hobj : pySort2 ((sched (crossTasks DATES fxx)).filter fun t => (oracle t).ok) =
      crossTasks DATES fxx := by
    rw [hfs]
    exact List.eq_of_perm_of_sorted ((pySort2_perm _).trans hs) (pySort2_sorted _)
      (crossTasks_sorted hDsort hfsort)
  have hFE : (crossTasks DATES fxx).filter (fun t => ((oracle t).grib).isSome) =
      crossTasks DATES fxx := List.filter_eq_self.mpr hfound
  have hFNE : (crossTasks DATES fxx).filter (fun t => ((oracle t).grib).isNone) = [] := by
    rw [List.filter_eq_nil_iff]
    intro t htm hneg
    have hsome := hfound t htm
    rw [Option.isNone_iff_eq_none.mp hneg] at hsome
    simp at hsome
  have hmain : fastHerbie oracle sched DATES fxx mt =
      .ok ⟨DATES, fxx, DATES.length * fxx.length, crossTasks DATES fxx,
        crossTasks DATES fxx, []⟩ := by
    rw [fastHerbie_eq_ok oracle sched DATES fxx mt
      (lt_min_iff.mpr ⟨Nat.mul_pos hD hL, hmt⟩)]
    rw [hobj, hFE, hFNE]
  refine ⟨_, hmain, rfl, rfl, ?_, by simp, ?_, ?_⟩
  · show FHBatch.dfGrid _ = _
    unfold FHBatch.dfGrid
    have h0 : ¬fxx.length = 0 := by omega
    rw [if_neg h0]
    rw [show chunkBy fxx.length (crossTasks DATES fxx) =
      DATES.map fun d => fxx.map fun f => ((d : Int), f) from chunkBy_crossTasks hL]
    rw [if_pos (by rw [List.length_map])]
  · intro row hrow
    obtain ⟨d, _, rfl⟩ := List.mem_map.mp hrow
    simp
  · intro i j
    unfold gridCell
    rw [List.getElem?_map, List.getElem?_eq_getElem i.isLt]
    simp only [Option.map_some', Option.some_bind]
    rw [List.getElem?_map, List.getElem?_eq_getElem j.isLt]
    simp [List.get_eq_getElem]

/-- Witness for C6 (amended) at sorted concrete axes. -/
theorem fastHerbie_df_grid_witness :
    ∃ b, fastHerbie allFound (fun l => l.reverse) [0, 1] [0, 2] 50 = .ok b ∧
      b.objects = crossTasks [0, 1] [0, 2] ∧
      b.file_not_exists = [] ∧
      b.dfGrid = .ok ([0, 1].map fun d => [0, 2].map fun f => (d, f)) ∧
      (([0, 1] : List Int).map fun d => ([0, 2] : List Int).map fun f =>
        ((d : Int), f)).length = ([0, 1] : List Int).length ∧
      (∀ row ∈ ([0, 1] : List Int).map fun d => ([0, 2] : List Int).map fun f =>
        ((d : Int), f), row.length = ([0, 2] : List Int).length) ∧
      ∀ (i : Fin ([0, 1] : List Int).length) (j : Fin ([0, 2] : List Int).length),
        gridCell (([0, 1] : List Int).map fun d => ([0, 2] : List Int).map fun f =>
          (d, f)) i j = some (([0, 1] : List Int).get i, ([0, 2] : List Int).get j) :=
  fastHerbie_df_grid_sorted_inputs allFound (fun l => l.reverse) [0, 1] [0, 2] 50
    (List.reverse_perm _) (by decide) (by decide) (by decide) (by decide) (by decide)
    (by decide) (by decide)

/-! ## Claims about the latest-file finder -/

/-- C7 counterexample: with `n = 1` (and `freq = 3`, `now = 10`) the probe
window is `[6, 9]`, which contains two timestamps, not `n = 1`: the window
always holds `n + 1` timestamps because both endpoints of the date range are
inclusive. -/
theorem latestWindow_length_cex :
    latestWindow 10 1 3 = [6, 9] ∧ (latestWindow 10 1 3).length = 2 ∧ (2 : Nat) ≠ 1 :=
  ⟨by decide, by decide, by decide⟩

/-- C7 (amended): `Herbie_latest` probes a window of exactly `n + 1`
timestamps spaced at `freq` whose last element is the current time floored to
`freq`, with lead fixed at 0, and any returned item is an existing item of
that window that is chronologically last among the existing items. -/
theorem Herbie_latest_spec (oracle : Task → TaskOutcome) (sched : List Task → List Task)
    (now : Int) (n : Nat) (freq : Int)
    (hs : (sched (crossTasks (latestWindow now n freq) [0])).Perm
      (crossTasks (latestWindow now n freq) [0])) :
    (latestWindow now n freq).length = n + 1 ∧
    (latestWindow now n freq).getLast? = some (freq * Int.fdiv now freq) ∧
    (∀ i : Nat, i < n → (latestWindow now n freq)[i + 1]? =
      ((latestWindow now n freq)[i]?).map fun x => x + freq) ∧
    ∀ t, Herbie_latest oracle sched now n freq = .ok t →
      ∃ b, fastHerbie oracle sched (latestWindow now n freq) [0] 50 = .ok b ∧
        b.file_exists.getLast? = some t ∧
        t ∈ b.file_exists ∧ ((oracle t).grib).isSome = true ∧ t.2 = 0 ∧
        t.1 ∈ latestWindow now n freq ∧
        ∀ u ∈ b.file_exists, u.1 ≤ t.1 := by
  have hlen : (latestWindow now n freq).length = n + 1 := by
    simp [latestWindow]
  refine ⟨hlen, ?_, ?_, ?_⟩
  · rw [List.getLast?_eq_getElem?, hlen]
    simp only [latestWindow, Nat.add_sub_cancel, List.getElem?_map]
    rw [List.getElem?_range (Nat.lt_succ_self n)]
    simp only [Option.map_some']
    congr 1
    ring
  · intro i hi
    simp only [latestWindow, List.getElem?_map]
    rw [List.getElem?_range (by omega), List.getElem?_range (by omega)]
    simp only [Option.map_some']
    congr 1
    push_cast
    ring
  · intro t ht
    have hpos : 0 < min ((latestWindow now n freq).length * ([0] : List Int).length) 50 := by
      rw [hlen]
      simp
    obtain ⟨b, hb⟩ : ∃ b, fastHerbie oracle sched (latestWindow now n freq) [0] 50 = .ok b :=
      ⟨_, fastHerbie_eq_ok oracle sched (latestWindow now n freq) [0] 50 hpos⟩
    obtain ⟨_, _, hbobj, hbfe, _⟩ := fastHerbie_ok_fields oracle sched _ [0] 50 b hb
    unfold Herbie_latest at ht
    rw [hb] at ht
    dsimp only at ht
    rcases hlast : b.file_exists.getLast? with _ | u
    · rw [hlast] at ht
      exact absurd ht (by simp)
    · rw [hlast] at ht
      simp only [Except.ok.injEq] at ht
      subst ht
      have hmemfe : u ∈ b.file_exists := List.mem_of_getLast?_eq_some hlast
      have hmemobj : u ∈ b.objects ∧ ((oracle u).grib).isSome = true := by
        rw [hbfe] at hmemfe
        exact ⟨(List.mem_filter.mp hmemfe).1, (List.mem_filter.mp hmemfe).2⟩
      have hmemcross : u ∈ crossTasks (latestWindow now n freq) [0] := by
        have hm := hmemobj.1
        rw [hbobj] at hm
        exact hs.mem_iff.mp (List.mem_filter.mp ((pySort2_perm _).mem_iff.mp hm)).1
      have hmc := mem_crossTasks.mp hmemcross
      refine ⟨b, hb, hlast, List.mem_of_getLast?_eq_some hlast, hmemobj.2,
        by simpa using hmc.2, hmc.1, ?_⟩
      intro v hv
      have hsorted : b.file_exists.Pairwise dateFxxLe := by
        rw [hbfe, hbobj]
        exact (pySort2_sorted _).filter _
      rcases pairwise_rel_getLast hsorted hlast v hv with rfl | hrel
      · exact le_refl _
      · exact dateFxxLe_date_le hrel

/-- Witness for C7 (amended) at concrete inputs. -/
theorem Herbie_latest_spec_witness :
    (latestWindow 10 1 3).length = 1 + 1 ∧
    (latestWindow 10 1 3).getLast? = some (3 * Int.fdiv 10 3) ∧
    (∀ i : Nat, i < 1 → (latestWindow 10 1 3)[i + 1]? =
      ((latestWindow 10 1 3)[i]?).map fun x => x + 3) ∧
    ∀ t, Herbie_latest allFound id 10 1 3 = .ok t →
      ∃ b, fastHerbie allFound id (latestWindow 10 1 3) [0] 50 = .ok b ∧
        b.file_exists.getLast? = some t ∧
        t ∈ b.file_exists ∧ ((allFound t).grib).isSome = true ∧ t.2 = 0 ∧
        t.1 ∈ latestWindow 10 1 3 ∧
        ∀ u ∈ b.file_exists, u.1 ≤ t.1 :=
  Herbie_latest_spec allFound id 10 1 3 (List.Perm.refl _)

/-! ## Claims about bulk download -/

/-- C8: when exactly one existing item's download raises and the rest
succeed, `download` raises nothing and returns exactly `N - 1` paths — the
successful ones, gathered in worker-completion order. -/
theorem download_partial_failure (b : FHBatch) (dl : Task → Option Nat)
    (sched : List Task → List Task) (mt : Nat)
    (hs : (sched b.file_exists).Perm b.file_exists)
    (ht : 0 < min b.tasks mt)
    (hone : (b.file_exists.filter fun t => (dl t).isNone).length = 1) :
    ∃ out, b.download dl sched mt = .ok out ∧
      out = (sched b.file_exists).filterMap dl ∧
      out.length = b.file_exists.length - 1 ∧
      out.Perm (b.file_exists.filterMap dl) ∧
      ∀ p ∈ out, ∃ t ∈ b.file_exists, dl t = some p := by
  refine ⟨_, ?_, rfl, ?_, ?_, ?_⟩
  · unfold FHBatch.download
    rw [if_neg (by omega)]
  · have h1 := length_filterMap_add_none dl (sched b.file_exists)
    have h2 : ((sched b.file_exists).filter fun t => (dl t).isNone).length = 1 :=
      ((hs.filter _).length_eq).trans hone
    have h3 : (sched b.file_exists).length = b.file_exists.length := hs.length_eq
    omega
  · exact hs.filterMap dl
  · intro p hp
    obtain ⟨t, htm, hdl⟩ := List.mem_filterMap.mp hp
    exact ⟨t, hs.mem_iff.mp htm, hdl⟩

/-- Witness for C8: two existing items, the download of the lead-2 item
failing. -/
theorem download_partial_failure_witness :
    ∃ out, FHBatch.download ⟨[0], [0, 2], 2, [(0, 0), (0, 2)], [(0, 0), (0, 2)], []⟩
        demoDownload (fun l => l.reverse) 20 = .ok out ∧
      out = ((fun (l : List Task) => l.reverse) [(0, 0), (0, 2)]).filterMap demoDownload ∧
      out.length = ([((0 : Int), (0 : Int)), (0, 2)] : List Task).length - 1 ∧
      out.Perm (([((0 : Int), (0 : Int)), (0, 2)] : List Task).filterMap demoDownload) ∧
      ∀ p ∈ out, ∃ t ∈ ([((0 : Int), (0 : Int)), (0, 2)] : List Task),
        demoDownload t = some p :=
  download_partial_failure ⟨[0], [0, 2], 2, [(0, 0), (0, 2)], [(0, 0), (0, 2)], []⟩
    demoDownload (fun l => l.reverse) 20 (List.reverse_perm _) (by decide) (by decide)

end HerbieFast
